import Mathlib

/-!
# Verification of the social-dashboard client core (`src/dashboard/static/js/app.js`)

A shallow embedding of the Alpine.js dashboard component returned by `dashboard()`.
Network calls (`fetch` + `res.json()`), the browser JSON parser, `Date` arithmetic
and the SSE event stream are external to the repository; they are modelled as
oracle inputs: a query's outcome is an `Option` value (`none` = network or parse
failure, i.e. the `catch` branch runs), the current time is a parameter, and the
order/timing of channel events is an environment-chosen trace.  Two ghost fields
(`loadingTrace`, `logTrace`) record every assignment to the `loading` flag and
every `console.error` line, so that temporal claims about them are statable.
All definitions are total: an embedded operation "never throws" by construction,
which mirrors the fact that every failure path in the source is caught locally.
-/

namespace SocialDashboard

/-- JSON values as delivered by the REST endpoints and the SSE payloads
(`JSON.parse` results).  An object is a finite list of key/value fields. -/
inductive Json where
  | null
  | bool (b : Bool)
  | num (n : Int)
  | str (s : String)
  | arr (elems : List Json)
  | obj (fields : List (String × Json))

/-- JavaScript property access `v.key` as used by the SSE handler (`data.event`):
a field lookup that yields a value only on objects that carry the key.
(On `null` the source throws a `TypeError` which the surrounding `catch`
swallows; on other non-objects it yields `undefined`: both are observationally
`none` here, since in every use the result is only compared against a string.) -/
def Json.getField : Json → String → Option Json
  | .obj fields, key => fields.lookup key
  | _, _ => none

/-- One row of `/api/posts/activity`: a `(source, hour, count)` tuple
(`row.source`, `row.hour`, `row.count` in `renderChart`). -/
structure ActivityRow where
  source : String
  hour : String
  count : Nat
deriving DecidableEq, Repr

/-- The component's mutable state (lines 4–15 of `app.js`), plus two ghost
trace fields.  `loadingTrace` records each value assigned to `loading`, in
order; `logTrace` records each `console.error` message prefix, in order. -/
structure StateStore where
  tab : String
  sourceFilter : String
  searchQuery : String
  posts : Json
  trends : Json
  stats : Json
  sourceStats : Json
  runs : Json
  activityData : List ActivityRow
  sseConnected : Bool
  loading : Bool
  lastUpdate : Option String
  loadingTrace : List Bool
  logTrace : List String

/-- The initial state literal of `dashboard()`. -/
def initState : StateStore where
  tab := "overview"
  sourceFilter := "all"
  searchQuery := ""
  posts := .arr []
  trends := .arr []
  stats := .obj [("total_posts", .num 0), ("posts_today", .num 0),
                 ("avg_engagement", .num 0), ("per_source", .obj [])]
  sourceStats := .arr []
  runs := .arr []
  activityData := []
  sseConnected := false
  loading := true
  lastUpdate := none
  loadingTrace := []
  logTrace := []

/-- `console.error(msg, e)`: appends to the ghost log. -/
def logError (msg : String) (s : StateStore) : StateStore :=
  { s with logTrace := s.logTrace ++ [msg] }

/-- `this.loading = b`, recorded in the ghost trace. -/
def setLoading (b : Bool) (s : StateStore) : StateStore :=
  { s with loading := b, loadingTrace := s.loadingTrace ++ [b] }

/-- The settled outcomes of the six queries of one `fetchAll` call:
`none` means the `fetch`/`res.json()` of that query threw. -/
structure FetchResults where
  posts : Option Json
  stats : Option Json
  trends : Option Json
  sourceStats : Option Json
  runs : Option Json
  activity : Option (List ActivityRow)

/-- `fetchPosts` (lines 40–48): on success assign `this.posts`; on failure
`console.error('Failed to fetch posts:', e)` and change nothing else. -/
def fetchPosts (result : Option Json) (s : StateStore) : StateStore :=
  match result with
  | some v => { s with posts := v }
  | none => logError "Failed to fetch posts:" s

/-- `fetchStats` (lines 50–55). -/
def fetchStats (result : Option Json) (s : StateStore) : StateStore :=
  match result with
  | some v => { s with stats := v }
  | none => logError "Failed to fetch stats:" s

/-- `fetchTrends` (lines 57–64). -/
def fetchTrends (result : Option Json) (s : StateStore) : StateStore :=
  match result with
  | some v => { s with trends := v }
  | none => logError "Failed to fetch trends:" s

/-- `fetchSourceStats` (lines 66–71). -/
def fetchSourceStats (result : Option Json) (s : StateStore) : StateStore :=
  match result with
  | some v => { s with sourceStats := v }
  | none => logError "Failed to fetch source stats:" s

/-- `fetchRuns` (lines 73–78). -/
def fetchRuns (result : Option Json) (s : StateStore) : StateStore :=
  match result with
  | some v => { s with runs := v }
  | none => logError "Failed to fetch runs:" s

/-- `fetchActivity` (lines 80–86); the `$nextTick(renderChart)` handoff is
modelled separately by the chart lifecycle below. -/
def fetchActivity (result : Option (List ActivityRow)) (s : StateStore) : StateStore :=
  match result with
  | some v => { s with activityData := v }
  | none => logError "Failed to fetch activity:" s

/-- `fetchAll` (lines 26–38): set `loading = true`, run the six queries
(`Promise.all` fan-out; they write disjoint fields, so applying the six
settled outcomes in sequence is observationally the fan-in), set
`loading = false`, record `lastUpdate`.  `now` is the oracle for
`new Date().toLocaleTimeString()`. -/
def fetchAll (r : FetchResults) (now : String) (s : StateStore) : StateStore :=
  let s1 := setLoading true s
  let s2 := fetchPosts r.posts s1
  let s3 := fetchStats r.stats s2
  let s4 := fetchTrends r.trends s3
  let s5 := fetchSourceStats r.sourceStats s4
  let s6 := fetchRuns r.runs s5
  let s7 := fetchActivity r.activity s6
  let s8 := setLoading false s7
  { s8 with lastUpdate := some now }

/-- The `URLSearchParams` of `fetchPosts` (lines 41–43): fixed page size 50,
descending order by engagement score; `source` only when the filter is not
the `"all"` sentinel; `search` only when the query text is truthy
(a nonempty string). -/
def buildPostParams (sourceFilter searchQuery : String) : List (String × String) :=
  [("limit", "50"), ("order", "desc"), ("sort", "engagement_score")]
    ++ (if sourceFilter ≠ "all" then [("source", sourceFilter)] else [])
    ++ (if searchQuery ≠ "" then [("search", searchQuery)] else [])

/-- The `URLSearchParams` of `fetchTrends` (lines 59–60): fixed top-15;
`source` only when the filter is not `"all"`.  No `search` key is ever set. -/
def buildTrendParams (sourceFilter : String) : List (String × String) :=
  [("limit", "15")]
    ++ (if sourceFilter ≠ "all" then [("source", sourceFilter)] else [])

/-- The SSE `onmessage` handler (lines 92–100); returns whether `fetchAll`
is triggered.  `data` is `e.data`; `parsed` is the oracle for
`JSON.parse(e.data)` (`none` = the parser threw, caught by the empty
`catch {}`).  Empty payloads return early; a refresh happens exactly when
the parsed value carries `event === 'scrape_complete'`. -/
def handleMessage (data : String) (parsed : Option Json) : Bool :=
  if data = "" then false
  else
    match parsed with
    | none => false
    | some j =>
        match j.getField "event" with
        | some (.str s) => s == "scrape_complete"
        | _ => false

/-- `triggerScrape` (lines 172–178).  `triggerResult` is the oracle for the
POST `fetch` + `res.json()` of the manual trigger.  In the source,
`await this.fetchAll()` sits INSIDE the `try` block, after `res.json()`:
when the trigger request throws, control jumps to `catch`, which logs and
returns — the refresh is skipped. -/
def triggerScrape (triggerResult : Option Json) (r : FetchResults) (now : String)
    (s : StateStore) : StateStore :=
  match triggerResult with
  | some _ => fetchAll r now s
  | none => logError "Failed to trigger scrape:" s

/-- `timeAgo` (lines 181–190).  The first argument models the `isoStr`
parameter (`none` = `null`/`undefined`); `diffMs` is the oracle for
`Date.now() - new Date(isoStr).getTime()`.  `Math.floor` of the float
division is floor division (`Int.fdiv`). -/
def timeAgo (isoStr : Option String) (diffMs : Int) : String :=
  match isoStr with
  | none => "N/A"
  | some str =>
      if str = "" then "N/A"
      else
        let mins : Int := Int.fdiv diffMs 60000
        if mins < 1 then "just now"
        else if mins < 60 then toString mins ++ "m ago"
        else
          let hrs : Int := Int.fdiv mins 60
          if hrs < 24 then toString hrs ++ "h ago"
          else toString (Int.fdiv hrs 24) ++ "d ago"

/-- `(n / d).toFixed(1)` for a natural `n` and positive divisor `d`:
the exact rational `n / d` rounded to one decimal (ties up), rendered as
`"<int>.<tenth>"`.  (JS `toFixed` rounds the binary double; on the exact
decimal values involved here the two agree.) -/
def toFixed1 (n d : Nat) : String :=
  let tenths := (10 * n + d / 2) / d
  toString (tenths / 10) ++ "." ++ toString (tenths % 10)

/-- `formatNumber` (lines 192–196): counts below 1000 unabbreviated,
thousands as `"x.yK"`, millions as `"x.yM"`. -/
def formatNumber (n : Nat) : String :=
  if n ≥ 1000000 then toFixed1 n 1000000 ++ "M"
  else if n ≥ 1000 then toFixed1 n 1000 ++ "K"
  else toString n

/-! ## The chart data transformer (`renderChart`, lines 117–141)

The data part of `renderChart`: grouping the activity rows by source
(`sources[row.source][row.hour] = row.count` — a later row for the same
`(source, hour)` key overwrites an earlier one), the shared deduplicated
sorted hour axis (`[...new Set(...)].sort()`), and the dense per-source
series (`allHours.map(h => hourMap[h] || 0)`).  JS string sort is the
lexicographic order, i.e. the `LinearOrder String` order; the dedup of
`new Set` is `List.dedup` (same members, no duplicates). -/

/-- The `hourMap[h]` lookup of the per-source sparse map: the count of the
last row with this `(source, hour)` key, if any. -/
def hourCount (rows : List ActivityRow) (src h : String) : Option Nat :=
  ((rows.filter (fun r => r.source == src && r.hour == h)).getLast?).map (·.count)

/-- The shared label axis `allHours`: all distinct hour buckets, sorted. -/
def chartHours (rows : List ActivityRow) : List String :=
  List.insertionSort (· ≤ ·) (rows.map (·.hour)).dedup

/-- The dense series value at one axis hour: `hourMap[h] || 0`
(a stored count of `0` and a missing key are both rendered as `0`). -/
def valueAt (rows : List ActivityRow) (src h : String) : Nat :=
  (hourCount rows src h).getD 0

/-- One dataset's `data` array: `allHours.map(h => hourMap[h] || 0)`. -/
def chartSeries (rows : List ActivityRow) (src : String) : List Nat :=
  (chartHours rows).map (valueAt rows src)

/-- The data-model invariant on an activity-row set: at most one row per
`(source, hour)` pair. -/
def UniqueRows (rows : List ActivityRow) : Prop :=
  rows.Pairwise (fun r1 r2 => ¬(r1.source = r2.source ∧ r1.hour = r2.hour))

instance (rows : List ActivityRow) : Decidable (UniqueRows rows) := by
  unfold UniqueRows
  exact List.instDecidablePairwise _

/-! ## The chart instance lifecycle (`renderChart`, lines 108–115 and 143)

Chart instances are modelled by numeric ids; `handle` is the module global
`window._activityChart` (`none` = unset, hence falsy), `live` is the set of
constructed-and-not-destroyed `Chart` objects, `nextId` a fresh-id counter. -/

structure RenderState where
  handle : Option Nat
  live : List Nat
  nextId : Nat
deriving DecidableEq, Repr

/-- One `renderChart()` invocation.  If the canvas is absent it returns
early.  Otherwise: if `window._activityChart` is set, `destroy()` it
(remove from the live set); then construct `new Chart(...)` and assign it
to `window._activityChart`. -/
def renderChart (canvasPresent : Bool) (s : RenderState) : RenderState :=
  if !canvasPresent then s
  else
    let afterDestroy :=
      match s.handle with
      | some c => { s with live := s.live.erase c }
      | none => s
    { handle := some afterDestroy.nextId
      live := afterDestroy.live ++ [afterDestroy.nextId]
      nextId := afterDestroy.nextId + 1 }

/-- The chart-ownership invariant: the live set is exactly the (at most one)
chart held by `window._activityChart`, and every live id was allocated
before the fresh-id counter. -/
def chartInv (s : RenderState) : Prop :=
  s.live = s.handle.toList ∧ ∀ c ∈ s.live, c < s.nextId

/-! ## The live update channel (`connectSSE`, lines 89–105)

An event-trace semantics.  Channels (`EventSource` instances) are numeric
ids; the state holds every constructed and not-yet-garbage channel (the
source never calls `es.close()`, so an errored channel stays live and its
`onerror` may fire again — the browser `EventSource` retries internally and
fires `error` on each failure), the FIFO list of pending reconnect timers
(as absolute fire times), the `sseConnected` flag and a fresh-id counter.
The environment chooses a time-stamped event trace; `onopen`/`onerror` may
fire only on an existing channel, and a timer may fire only once its
scheduled time has passed. -/

inductive SSEEvent where
  | chOpen (c : Nat)
  | chError (c : Nat)
  | timerFire
deriving DecidableEq, Repr

structure SSEState where
  channels : List Nat
  timers : List Nat
  sseConnected : Bool
  nextId : Nat
deriving DecidableEq, Repr

/-- The state after the single startup `connectSSE()` call (`init`, line 20):
one channel, no pending timer. -/
def sseInit : SSEState where
  channels := [0]
  timers := []
  sseConnected := false
  nextId := 1

/-- Which events the environment may deliver at time `t`. -/
def sseValidEvent (s : SSEState) (t : Nat) : SSEEvent → Bool
  | .chOpen c => decide (c ∈ s.channels)
  | .chError c => decide (c ∈ s.channels)
  | .timerFire =>
      match s.timers with
      | [] => false
      | t0 :: _ => t0 ≤ t

/-- The handler semantics. `onopen`: set the connectivity flag.  `onerror`:
clear it and `setTimeout(() => connectSSE(), 5000)` — append one timer due
at `t + 5000`.  A firing timer runs `connectSSE()`: construct one brand-new
`EventSource` with a fresh id. -/
def sseStep (s : SSEState) (t : Nat) : SSEEvent → SSEState
  | .chOpen _ => { s with sseConnected := true }
  | .chError _ => { s with sseConnected := false, timers := s.timers ++ [t + 5000] }
  | .timerFire =>
      match s.timers with
      | [] => s
      | _ :: rest =>
          { s with timers := rest
                   channels := s.channels ++ [s.nextId]
                   nextId := s.nextId + 1 }

/-- A trace is valid from state `s` after time `prev` when its events are
time-ordered and each is deliverable in the state reached so far. -/
def sseValidTrace : SSEState → Nat → List (Nat × SSEEvent) → Bool
  | _, _, [] => true
  | s, prev, (t, e) :: rest =>
      decide (prev ≤ t) && sseValidEvent s t e && sseValidTrace (sseStep s t e) t rest

/-- Running a trace. -/
def sseExec : SSEState → List (Nat × SSEEvent) → SSEState
  | s, [] => s
  | s, (t, e) :: rest => sseExec (sseStep s t e) rest

/-- The channel ids of the error events of a trace, in order. -/
def erroredChannels : List (Nat × SSEEvent) → List Nat
  | [] => []
  | (_, .chError c) :: rest => c :: erroredChannels rest
  | _ :: rest => erroredChannels rest

/-- The activity-row set of the spec's end-to-end scenario:
`[(reddit,10:00,5), (reddit,11:00,3), (news,11:00,2)]`. -/
def exampleRows : List ActivityRow :=
  [⟨"reddit", "10:00", 5⟩, ⟨"reddit", "11:00", 3⟩, ⟨"news", "11:00", 2⟩]

/-- The all-queries-failed outcome of one `fetchAll` call. -/
def allFail : FetchResults :=
  { posts := none, stats := none, trends := none
    sourceStats := none, runs := none, activity := none }

/-! ## Theorems -/

/-- Claim C1: for every single-query fetch of the orchestrated refresh, a
failed query (network or parse error, i.e. outcome `none`) leaves the whole
`StateStore` unchanged except for one appended log line: in particular the
corresponding field keeps exactly its previous value, the failure is logged,
and — the embedded handlers being total functions — no error reaches the
caller. -/
theorem query_failure_keeps_previous_value (s : StateStore) :
    fetchPosts none s = { s with logTrace := s.logTrace ++ ["Failed to fetch posts:"] } ∧
    fetchStats none s = { s with logTrace := s.logTrace ++ ["Failed to fetch stats:"] } ∧
    fetchTrends none s = { s with logTrace := s.logTrace ++ ["Failed to fetch trends:"] } ∧
    fetchSourceStats none s
      = { s with logTrace := s.logTrace ++ ["Failed to fetch source stats:"] } ∧
    fetchRuns none s = { s with logTrace := s.logTrace ++ ["Failed to fetch runs:"] } ∧
    fetchActivity none s
      = { s with logTrace := s.logTrace ++ ["Failed to fetch activity:"] } :=
  ⟨rfl, rfl, rfl, rfl, rfl, rfl⟩

/-- Claim C2: every `fetchAll` call — whatever the six per-query outcomes,
including all six failing — appends exactly the transition `true, false` to
the loading-flag write trace, ends with the loading flag `false`, and
records the last-updated timestamp.  The embedded `fetchAll` is a total
function, so the call never throws. -/
theorem refreshAll_loading_and_timestamp (r : FetchResults) (now : String) (s : StateStore) :
    (fetchAll r now s).loadingTrace = s.loadingTrace ++ [true, false] ∧
    (fetchAll r now s).loading = false ∧
    (fetchAll r now s).lastUpdate = some now := by
  obtain ⟨p, st, tr, ss, ru, ac⟩ := r
  cases p <;> cases st <;> cases tr <;> cases ss <;> cases ru <;> cases ac <;>
    simp [fetchAll, fetchPosts, fetchStats, fetchTrends, fetchSourceStats, fetchRuns,
      fetchActivity, setLoading, logError]

/-- Claim C5, counterexample: it is not the case that every `triggerScrape`
call performs the orchestrated refresh afterwards (a refresh shows up as the
`true, false` loading transition of `refreshAll_loading_and_timestamp`).
Concretely, when the trigger request fails (`none`), no refresh happens:
`await this.fetchAll()` sits inside the `try` block of the source, so the
`catch` path skips it. -/
theorem trigger_failure_skips_refresh :
    ¬ ∀ (tr : Option Json) (r : FetchResults) (now : String) (s : StateStore),
        (triggerScrape tr r now s).loadingTrace = s.loadingTrace ++ [true, false] := by
  intro hclaim
  have h := hclaim none allFail "12:00:00" initState
  simp [triggerScrape, logError, initState] at h

/-- Claim C5, amended: the orchestrated refresh follows a `triggerScrape`
call exactly when the trigger request succeeded; a trigger failure is logged
and the refresh is skipped (the state keeps its previous loading trace and
last-updated timestamp and only gains the log line). -/
theorem trigger_refresh_on_success_only (j : Json) (r : FetchResults) (now : String)
    (s : StateStore) :
    (triggerScrape (some j) r now s).loadingTrace = s.loadingTrace ++ [true, false] ∧
    triggerScrape none r now s
      = { s with logTrace := s.logTrace ++ ["Failed to trigger scrape:"] } := by
  refine ⟨?_, rfl⟩
  exact (refreshAll_loading_and_timestamp r now s).1

/-- Claim C6, counterexample: the trend query does not attach the search
parameter exactly when the search text is nonempty — it never attaches one.
At filter `"all"` and search text `"x"` the claim demands a `search`
parameter on the trend query, but none is present. -/
theorem trend_query_search_param_refuted :
    ¬ ∀ (sourceFilter searchQuery : String),
        ((buildTrendParams sourceFilter).lookup "search" = none ↔ searchQuery = "") := by
  intro hclaim
  exact absurd ((hclaim "all" "x").mp (by decide)) (by decide)

/-- Claim C6, amended: the post query attaches the fixed page size 50,
descending order by engagement score; both queries omit the `source`
parameter exactly when the selected source is the `"all"` sentinel and
otherwise set it to the selected tag; the post query omits the `search`
parameter exactly when the search text is empty; the trend query attaches
its fixed top-15 and never attaches a `search` parameter. -/
theorem query_param_construction (sourceFilter searchQuery : String) :
    (buildPostParams sourceFilter searchQuery).lookup "limit" = some "50" ∧
    (buildPostParams sourceFilter searchQuery).lookup "order" = some "desc" ∧
    (buildPostParams sourceFilter searchQuery).lookup "sort" = some "engagement_score" ∧
    (buildPostParams sourceFilter searchQuery).lookup "source"
      = (if sourceFilter = "all" then none else some sourceFilter) ∧
    (buildPostParams sourceFilter searchQuery).lookup "search"
      = (if searchQuery = "" then none else some searchQuery) ∧
    (buildTrendParams sourceFilter).lookup "limit" = some "15" ∧
    (buildTrendParams sourceFilter).lookup "source"
      = (if sourceFilter = "all" then none else some sourceFilter) ∧
    (buildTrendParams sourceFilter).lookup "search" = none := by
  by_cases hs : sourceFilter = "all" <;> by_cases hq : searchQuery = "" <;>
    simp [buildPostParams, buildTrendParams, hs, hq, List.lookup]

/-- Claim C7: an incoming push-channel message triggers the orchestrated
refresh if and only if its payload is nonempty, parses (the parse oracle
yields a value), and that value carries the `event` field with the
recognized `"scrape_complete"` tag.  The handler is a total function
returning `false` on malformed payloads and unrecognized tags: they are
ignored with no surfaced error. -/
theorem push_message_triggers_refresh_iff (data : String) (parsed : Option Json) :
    handleMessage data parsed = true ↔
      data ≠ "" ∧ ∃ j, parsed = some j ∧
        j.getField "event" = some (Json.str "scrape_complete") := by
  by_cases hd : data = ""
  · simp [handleMessage, hd]
  · rcases parsed with _ | j
    · simp [handleMessage, hd]
    · rcases hevt : j.getField "event" with _ | v
      · simp [handleMessage, hd, hevt]
      · cases v <;> simp [handleMessage, hd, hevt]

/-- Claim C9: the count formatter renders 999 unabbreviated, 1000 as
`"1.0K"`, 1000000 as `"1.0M"`; the elapsed-time formatter renders every
nonnegative elapsed time under one minute as `"just now"` and exactly 60
minutes as `"1h ago"`. -/
theorem formatting_boundaries :
    formatNumber 999 = "999" ∧
    formatNumber 1000 = "1.0K" ∧
    formatNumber 1000000 = "1.0M" ∧
    (∀ diffMs : Int, 0 ≤ diffMs → diffMs < 60000 →
      timeAgo (some "2024-01-01T00:00:00Z") diffMs = "just now") ∧
    timeAgo (some "2024-01-01T00:00:00Z") 3600000 = "1h ago" := by
  refine ⟨by decide, by decide, by decide, ?_, by decide⟩
  intro d h0 hlt
  have hdiv : Int.fdiv d 60000 = 0 := by
    rw [Int.fdiv_eq_ediv _ (by decide : (0 : Int) ≤ 60000)]
    exact Int.ediv_eq_zero_of_lt h0 hlt
  simp [timeAgo, hdiv]

/-- Claim C9, witness: the elapsed-time bound applied at 59999 ms. -/
theorem formatting_boundaries_witness :
    timeAgo (some "2024-01-01T00:00:00Z") 59999 = "just now" :=
  formatting_boundaries.2.2.2.1 59999 (by decide) (by decide)

/-- Claim C10: for every absent timestamp input — `null`/`undefined`
(modelled `none`) or the empty string — `timeAgo` returns `"N/A"`,
independently of the elapsed-time oracle, i.e. without computing an elapsed
time. -/
theorem absent_timestamp_not_available (diffMs : Int) :
    timeAgo none diffMs = "N/A" ∧ timeAgo (some "") diffMs = "N/A" :=
  ⟨rfl, by simp [timeAgo]⟩

/-- Claim C8: the chart-ownership invariant — the live set is exactly the
chart held by the global handle — is preserved by every `renderChart`
invocation; consequently at most one chart instance is live at any point,
and whenever a new chart is constructed over a previously held one, the old
instance has been destroyed and is no longer live. -/
theorem chart_single_live_instance (canvasPresent : Bool) (s : RenderState)
    (h : chartInv s) :
    chartInv (renderChart canvasPresent s) ∧
    (renderChart canvasPresent s).live.length ≤ 1 ∧
    (∀ c, canvasPresent = true → s.handle = some c →
      c ∉ (renderChart canvasPresent s).live) := by
  obtain ⟨hlive, hbound⟩ := h
  cases canvasPresent with
  | false =>
      refine ⟨⟨hlive, hbound⟩, ?_, ?_⟩
      · show s.live.length ≤ 1
        rw [hlive]
        cases s.handle <;> simp
      · intro c hc
        cases hc
  | true =>
      cases hh : s.handle with
      | none =>
          have hle : s.live = [] := by rw [hlive, hh]; rfl
          have hr : renderChart true s
              = ⟨some s.nextId, s.live ++ [s.nextId], s.nextId + 1⟩ := by
            simp [renderChart, hh]
          refine ⟨⟨?_, ?_⟩, ?_, ?_⟩
          · rw [hr, hle]
            simp
          · intro c hc
            rw [hr, hle] at hc
            rw [hr]
            simp at hc ⊢
            omega
          · rw [hr, hle]
            simp
          · intro c _ hcs
            cases hcs
      | some c0 =>
          have hl : s.live = [c0] := by rw [hlive, hh]; rfl
          have hc0 : c0 < s.nextId := hbound c0 (by rw [hl]; exact List.mem_singleton.mpr rfl)
          have hr : renderChart true s
              = ⟨some s.nextId, s.live.erase c0 ++ [s.nextId], s.nextId + 1⟩ := by
            simp [renderChart, hh]
          have herase : s.live.erase c0 = [] := by rw [hl]; simp
          refine ⟨⟨?_, ?_⟩, ?_, ?_⟩
          · rw [hr, herase]
            simp
          · intro c hc
            rw [hr, herase] at hc
            rw [hr]
            simp at hc ⊢
            omega
          · rw [hr, herase]
            simp
          · intro c _ hcs
            obtain rfl : c0 = c := by injection hcs
            rw [hr, herase]
            simp
            omega

/-- Claim C8, witness: the invariant theorem applied to the initial render
state (no handle, no live instance) with the canvas present. -/
theorem chart_single_live_instance_witness :
    chartInv (renderChart true ⟨none, [], 0⟩) ∧
    (renderChart true ⟨none, [], 0⟩).live.length ≤ 1 :=
  ⟨(chart_single_live_instance true ⟨none, [], 0⟩ ⟨rfl, by simp⟩).1,
   (chart_single_live_instance true ⟨none, [], 0⟩ ⟨rfl, by simp⟩).2.1⟩

lemma hourCount_eq_none (rows : List ActivityRow) (src h : String)
    (hno : ∀ r ∈ rows, ¬(r.source = src ∧ r.hour = h)) :
    hourCount rows src h = none := by
  have hf : rows.filter (fun r => r.source == src && r.hour == h) = [] := by
    refine List.filter_eq_nil_iff.mpr ?_
    intro r hr
    simpa using hno r hr
  simp [hourCount, hf]

lemma filter_pair_unique (rows : List ActivityRow) (r : ActivityRow)
    (hu : UniqueRows rows) (hr : r ∈ rows) :
    rows.filter (fun x => x.source == r.source && x.hour == r.hour) = [r] := by
  induction rows with
  | nil => cases hr
  | cons x xs ih =>
      rw [UniqueRows, List.pairwise_cons] at hu
      obtain ⟨hx, hxs⟩ := hu
      rcases List.mem_cons.mp hr with rfl | hr
      · rw [List.filter_cons_of_pos (by simp)]
        have hrest : xs.filter (fun y => y.source == r.source && y.hour == r.hour) = [] := by
          refine List.filter_eq_nil_iff.mpr ?_
          intro y hy
          have := hx y hy
          simp only [Bool.and_eq_true, beq_iff_eq, not_and] at this ⊢
          intro h1 h2
          exact this h1.symm h2.symm
        rw [hrest]
      · rw [List.filter_cons_of_neg ?_, ih hxs hr]
        have := hx r hr
        simp only [Bool.and_eq_true, beq_iff_eq, not_and] at this ⊢
        intro h1 h2
        exact this h1 h2

lemma valueAt_of_mem (rows : List ActivityRow) (r : ActivityRow)
    (hu : UniqueRows rows) (hr : r ∈ rows) :
    valueAt rows r.source r.hour = r.count := by
  simp [valueAt, hourCount, filter_pair_unique rows r hu hr]

/-- Claim C3: for every activity-row set the transformer's label axis is the
strictly ascending sorted sequence of exactly the distinct hour buckets of
the rows; every per-source series is the axis-aligned map of values (hence
one entry per axis position); a position whose hour has no row for the
source carries zero; a position whose hour has a (unique) row carries that
row's count; and on the spec's end-to-end scenario the transformer yields
axis `[10:00, 11:00]`, reddit series `[5, 3]`, news series `[0, 2]`. -/
theorem chart_transform (rows : List ActivityRow) :
    (chartHours rows).Sorted (· < ·) ∧
    (∀ h, h ∈ chartHours rows ↔ h ∈ rows.map (·.hour)) ∧
    (chartHours rows).length = ((rows.map (·.hour)).dedup).length ∧
    (∀ src, chartSeries rows src = (chartHours rows).map (valueAt rows src) ∧
      (chartSeries rows src).length = (chartHours rows).length) ∧
    (∀ src h, (∀ r ∈ rows, ¬(r.source = src ∧ r.hour = h)) → valueAt rows src h = 0) ∧
    (UniqueRows rows → ∀ r ∈ rows, valueAt rows r.source r.hour = r.count) ∧
    (chartHours exampleRows = ["10:00", "11:00"] ∧
      chartSeries exampleRows "reddit" = [5, 3] ∧
      chartSeries exampleRows "news" = [0, 2]) := by
  have hperm := List.perm_insertionSort (α := String) (· ≤ ·) (rows.map (·.hour)).dedup
  have hle : ("10:00" : String) ≤ "11:00" := by
    rw [String.le_iff_toList_le]
    decide
  have hdedup : (exampleRows.map (·.hour)).dedup = ["10:00", "11:00"] := by decide
  have hch : chartHours exampleRows = ["10:00", "11:00"] := by
    rw [chartHours, hdedup]
    refine List.Sorted.insertionSort_eq ?_
    rw [List.sorted_cons]
    refine ⟨?_, List.sorted_singleton _⟩
    intro b hb
    rw [List.mem_singleton] at hb
    subst hb
    exact hle
  refine ⟨?_, ?_, ?_, ?_, ?_, ?_, hch, ?_, ?_⟩
  · have hnd : (chartHours rows).Nodup :=
      hperm.nodup_iff.mpr ((rows.map (·.hour)).nodup_dedup)
    exact (List.sorted_insertionSort (· ≤ ·) _).lt_of_le hnd
  · intro h
    rw [chartHours, List.mem_insertionSort, List.mem_dedup]
  · exact hperm.length_eq
  · intro src
    exact ⟨rfl, List.length_map _ _⟩
  · intro src h hno
    simp [valueAt, hourCount_eq_none rows src h hno]
  · intro hu r hr
    exact valueAt_of_mem rows r hu hr
  · show (chartHours exampleRows).map (valueAt exampleRows "reddit") = [5, 3]
    rw [hch]
    decide
  · show (chartHours exampleRows).map (valueAt exampleRows "news") = [0, 2]
    rw [hch]
    decide

/-- Claim C3, witness: on the end-to-end scenario's row set — which has one
row per (source, hour) pair — the axis position of hour 10:00 carries
reddit's count 5, and the twitter series (twitter has no rows) carries zero
at that position. -/
theorem chart_transform_witness :
    valueAt exampleRows "reddit" "10:00" = 5 ∧
    valueAt exampleRows "twitter" "10:00" = 0 :=
  ⟨(chart_transform exampleRows).2.2.2.2.2.1 (by decide)
      ⟨"reddit", "10:00", 5⟩ (by decide),
   (chart_transform exampleRows).2.2.2.2.1 "twitter" "10:00" (by decide)⟩

lemma sseStep_chOpen (s : SSEState) (t c : Nat) :
    (sseStep s t (.chOpen c)).timers = s.timers ∧
    (sseStep s t (.chOpen c)).channels = s.channels ∧
    (sseStep s t (.chOpen c)).nextId = s.nextId :=
  ⟨rfl, rfl, rfl⟩

lemma sseStep_chError (s : SSEState) (t c : Nat) :
    (sseStep s t (.chError c)).timers = s.timers ++ [t + 5000] ∧
    (sseStep s t (.chError c)).channels = s.channels ∧
    (sseStep s t (.chError c)).sseConnected = false :=
  ⟨rfl, rfl, rfl⟩

lemma sseStep_timerFire (s : SSEState) (t t0 : Nat) (rest : List Nat)
    (h : s.timers = t0 :: rest) :
    (sseStep s t .timerFire).timers = rest ∧
    (sseStep s t .timerFire).channels = s.channels ++ [s.nextId] := by
  refine ⟨?_, ?_⟩ <;> simp [sseStep, h]

lemma sseValidTrace_cons {s : SSEState} {prev t : Nat} {e : SSEEvent}
    {rest : List (Nat × SSEEvent)}
    (h : sseValidTrace s prev ((t, e) :: rest) = true) :
    prev ≤ t ∧ sseValidEvent s t e = true ∧
      sseValidTrace (sseStep s t e) t rest = true := by
  simp only [sseValidTrace, Bool.and_eq_true, decide_eq_true_eq] at h
  exact ⟨h.1.1, h.1.2, h.2⟩

lemma sseStep_channels_subset (s : SSEState) (t : Nat) (e : SSEEvent) :
    s.channels ⊆ (sseStep s t e).channels := by
  cases e with
  | chOpen c => exact fun a ha => ha
  | chError c => exact fun a ha => ha
  | timerFire =>
      cases h : s.timers with
      | nil => simp [sseStep, h]
      | cons t0 rest =>
          intro a ha
          rw [(sseStep_timerFire s t t0 rest h).2]
          exact List.mem_append_left _ ha

lemma sseExec_channels_subset (evs : List (Nat × SSEEvent)) :
    ∀ s : SSEState, s.channels ⊆ (sseExec s evs).channels := by
  induction evs with
  | nil => exact fun s a ha => ha
  | cons te rest ih =>
      intro s
      obtain ⟨t, e⟩ := te
      exact (sseStep_channels_subset s t e).trans (ih (sseStep s t e))

lemma erroredChannels_subset (evs : List (Nat × SSEEvent)) :
    ∀ (s : SSEState) (prev : Nat), sseValidTrace s prev evs = true →
      erroredChannels evs ⊆ (sseExec s evs).channels := by
  induction evs with
  | nil =>
      intro s prev _ a ha
      cases ha
  | cons te rest ih =>
      intro s prev hval
      obtain ⟨t, e⟩ := te
      obtain ⟨hpt, hev, hrest⟩ := sseValidTrace_cons hval
      cases e with
      | chOpen c => exact ih _ _ hrest
      | timerFire => exact ih _ _ hrest
      | chError c =>
          intro a ha
          rcases List.mem_cons.mp ha with rfl | ha
          · have hc : a ∈ s.channels := by
              simpa [sseValidEvent] using hev
            have hc2 : a ∈ (sseStep s t (.chError a)).channels := by
              rw [(sseStep_chError s t a).2.1]
              exact hc
            exact sseExec_channels_subset rest _ hc2
          · exact ih _ _ hrest ha

lemma sseExec_timer_count (evs : List (Nat × SSEEvent)) :
    ∀ (s : SSEState) (prev : Nat), sseValidTrace s prev evs = true →
      (sseExec s evs).timers.length + (sseExec s evs).channels.length
        = s.timers.length + s.channels.length + (erroredChannels evs).length := by
  induction evs with
  | nil => intro s prev _; rfl
  | cons te rest ih =>
      intro s prev hval
      obtain ⟨t, e⟩ := te
      obtain ⟨hpt, hev, hrest⟩ := sseValidTrace_cons hval
      have hexec : sseExec s ((t, e) :: rest) = sseExec (sseStep s t e) rest := rfl
      have hih := ih (sseStep s t e) t hrest
      rw [hexec, hih]
      cases e with
      | chOpen c =>
          rw [(sseStep_chOpen s t c).1, (sseStep_chOpen s t c).2.1]
          rfl
      | chError c =>
          rw [(sseStep_chError s t c).1, (sseStep_chError s t c).2.1]
          have herr : erroredChannels ((t, SSEEvent.chError c) :: rest)
              = c :: erroredChannels rest := rfl
          rw [herr]
          simp [List.length_append]
          omega
      | timerFire =>
          cases htm : s.timers with
          | nil => simp [sseValidEvent, htm] at hev
          | cons t0 restT =>
              rw [(sseStep_timerFire s t t0 restT htm).1,
                (sseStep_timerFire s t t0 restT htm).2]
              have herr : erroredChannels ((t, SSEEvent.timerFire) :: rest)
                  = erroredChannels rest := rfl
              rw [herr]
              simp [List.length_append]
              omega

lemma sse_pending_timers_le_one (evs : List (Nat × SSEEvent))
    (hval : sseValidTrace sseInit 0 evs = true)
    (hnd : (erroredChannels evs).Nodup) :
    (sseExec sseInit evs).timers.length ≤ 1 := by
  have hcount := sseExec_timer_count evs sseInit 0 hval
  have hsub := erroredChannels_subset evs sseInit 0 hval
  have h1 : (erroredChannels evs).toFinset.card = (erroredChannels evs).length :=
    List.toFinset_card_of_nodup hnd
  have h2 : (erroredChannels evs).toFinset ⊆ (sseExec sseInit evs).channels.toFinset :=
    fun x hx => List.mem_toFinset.mpr (hsub (List.mem_toFinset.mp hx))
  have h3 := Finset.card_le_card h2
  have h4 := (sseExec sseInit evs).channels.toFinset_card_le
  have h5 : sseInit.timers.length = 0 := rfl
  have h6 : sseInit.channels.length = 1 := rfl
  omega

/-- Claim C4, counterexample: it is not the case that at most one reconnect
timer is pending at every point of every valid event trace.  The source
never closes an errored `EventSource` and a browser `EventSource` fires
`error` on each failed internal retry, so two error events on the still-live
startup channel are a valid trace — and they leave two timers pending. -/
theorem single_pending_reconnect_refuted :
    ¬ ∀ evs, sseValidTrace sseInit 0 evs = true →
        (sseExec sseInit evs).timers.length ≤ 1 := by
  intro hclaim
  exact absurd (hclaim [(1, .chError 0), (2, .chError 0)] (by decide)) (by decide)

/-- Claim C4, amended: on every channel error event the connectivity flag is
cleared and exactly one reconnection timer is scheduled, due exactly 5000 ms
after the error; a pending reconnect timer may fire only once its scheduled
time has passed, and its firing constructs exactly one brand-new channel
instance; and — provided each channel instance emits at most one error event
(nothing in the source enforces this: it never closes an errored channel,
see the counterexample) — at most one reconnect timer is pending after any
valid trace from the startup state. -/
theorem reconnect_policy (s : SSEState) (t c t0 : Nat) (restT : List Nat)
    (evs : List (Nat × SSEEvent))
    (_hc : c ∈ s.channels)
    (htm : s.timers = t0 :: restT)
    (hfire : sseValidEvent s t .timerFire = true)
    (hval : sseValidTrace sseInit 0 evs = true)
    (hnd : (erroredChannels evs).Nodup) :
    (sseStep s t (.chError c)).sseConnected = false ∧
    (sseStep s t (.chError c)).timers = s.timers ++ [t + 5000] ∧
    (sseStep s t (.chError c)).channels = s.channels ∧
    t0 ≤ t ∧
    (sseStep s t .timerFire).channels = s.channels ++ [s.nextId] ∧
    (sseStep s t .timerFire).timers = restT ∧
    (sseExec sseInit evs).timers.length ≤ 1 := by
  refine ⟨(sseStep_chError s t c).2.2, (sseStep_chError s t c).1,
    (sseStep_chError s t c).2.1, ?_, (sseStep_timerFire s t t0 restT htm).2,
    (sseStep_timerFire s t t0 restT htm).1, sse_pending_timers_le_one evs hval hnd⟩
  simpa [sseValidEvent, htm] using hfire

/-- Claim C4, witness: the amended reconnect policy applied to the state
reached after one error (one pending timer due at 5001 ms), a fire at
6000 ms, and the valid one-error trace followed by its reconnect. -/
theorem reconnect_policy_witness :
    (sseExec sseInit [(1, .chError 0), (6001, .timerFire)]).timers.length ≤ 1 :=
  (reconnect_policy ⟨[0], [5001], false, 1⟩ 6000 0 5001 []
    [(1, .chError 0), (6001, .timerFire)]
    (by decide) (by decide) (by decide) (by decide) (by decide)).2.2.2.2.2.2

end SocialDashboard
